import Mathlib

/-!
Shallow embedding of `pkg/api/object.go` (easegress object API):
the object registry handlers `createObject`, `updateObject`, `deleteObject`,
`getObject`, `listObjects`, `getStatusObject`, `listStatusObjects`,
the shared helpers `readObjectSpec`, `upgradeConfigVersion` and the
`specList` sorting/marshalling, together with the registry primitives
(`_getObject`, `_putObject`, `_deleteObject`, `_plusOneVersion`,
`_listObjects`, `_getStatusObject`, `_listStatusObjects`) that the file
calls but whose bodies live elsewhere in the repository; those are
modelled from the spec (section 4.1).

External collaborators (the YAML codec and the spec parser
`supervisor.NewSpec`) are parameters of the handlers that use them.
-/

set_option autoImplicit false

namespace EG

/-- A parsed configuration object: `supervisor.Spec` as this file uses it —
only `Name()`, `Kind()` and `YAMLConfig()` (the canonical serialized form)
are read. -/
structure Spec where
  name : String
  kind : String
  yamlConfig : String
deriving Repr, DecidableEq

/-- Opaque runtime-status value held by the status view; this core never
interprets its shape. -/
abbrev StatusValue := String

/-- Server state as seen by `object.go`: the registry mapping (name → Spec,
modelled as an association list with unique keys irrelevant to lookup),
the monotonic configuration version, and the externally populated status
view. -/
structure Server where
  objects : List (String × Spec)
  configVersion : Nat
  statusObjects : List (String × StatusValue)
deriving Repr, DecidableEq

/-- Association-list lookup used to model Go map reads. -/
def lookupSpec : List (String × Spec) → String → Option Spec
  | [], _ => none
  | p :: ps, n => if p.1 = n then some p.2 else lookupSpec ps n

/-- Association-list lookup for the status view. -/
def lookupStatus : List (String × StatusValue) → String → Option StatusValue
  | [], _ => none
  | p :: ps, n => if p.1 = n then some p.2 else lookupStatus ps n

/-- Association-list key removal used to model Go map deletion and
replacement. -/
def eraseKey (n : String) : List (String × Spec) → List (String × Spec)
  | [] => []
  | p :: ps => if p.1 = n then eraseKey n ps else p :: eraseKey n ps

/-- Modelled from the spec: registry read `_getObject` — lock-free read of
the current `name → Spec` mapping, `none` on absence (spec 4.1 `get`). -/
def Server.«_getObject» (s : Server) (name : String) : Option Spec :=
  lookupSpec s.objects name

/-- Modelled from the spec: `_putObject` — unconditionally inserts or
replaces the entry for `spec.name` (spec 4.1 `put`). -/
def Server.«_putObject» (s : Server) (spec : Spec) : Server :=
  { s with objects := (spec.name, spec) :: eraseKey spec.name s.objects }

/-- Modelled from the spec: `_deleteObject` — removes the entry for `name`
if present (spec 4.1 `delete`). -/
def Server.«_deleteObject» (s : Server) (name : String) : Server :=
  { s with objects := eraseKey name s.objects }

/-- Modelled from the spec: `_listObjects` — lock-free read of all stored
Specs (spec 4.1 `list`). -/
def Server.«_listObjects» (s : Server) : List Spec :=
  s.objects.map Prod.snd

/-- Modelled from the spec: `_plusOneVersion` — increments the process-wide
configuration version and returns the new value (spec 4.1 `bumpVersion`). -/
def Server.«_plusOneVersion» (s : Server) : Server × Nat :=
  ({ s with configVersion := s.configVersion + 1 }, s.configVersion + 1)

/-- Modelled from the spec: `_getStatusObject` — read of the status view,
populated by the external supervisor (spec 4.3). -/
def Server.«_getStatusObject» (s : Server) (name : String) : Option StatusValue :=
  lookupStatus s.statusObjects name

/-- Modelled from the spec: `_listStatusObjects` — the whole status-view
snapshot (spec 4.3). -/
def Server.«_listStatusObjects» (s : Server) : List (String × StatusValue) :=
  s.statusObjects

/-- The response data this file writes to the iris context: status code,
the config-version header set by `upgradeConfigVersion`, the `Location`
header, `Content-Type`, the written body, and the error message passed to
`HandleAPIError`. -/
structure Response where
  statusCode : Nat
  configVersionHeader : Option Nat
  location : Option String
  contentType : Option String
  body : Option String
  errMessage : Option String
deriving Repr, DecidableEq

/-- iris.StatusBadRequest. -/
def statusBadRequest : Nat := 400
/-- iris.StatusNotFound. -/
def statusNotFound : Nat := 404
/-- iris.StatusConflict. -/
def statusConflict : Nat := 409
/-- iris.StatusCreated. -/
def statusCreated : Nat := 201
/-- iris default status for handlers that never call StatusCode. -/
def statusOK : Nat := 200

/-- The response `HandleAPIError(ctx, code, err)` produces: the error status
code and the error message, nothing else. -/
def handleAPIError (code : Nat) (msg : String) : Response :=
  { statusCode := code, configVersionHeader := none, location := none,
    contentType := none, body := none, errMessage := some msg }

/-- A fresh 200 response with nothing set yet. -/
def emptyResponse : Response :=
  { statusCode := statusOK, configVersionHeader := none, location := none,
    contentType := none, body := none, errMessage := none }

/-- A 200 response carrying a `text/vnd.yaml` body. -/
def okYaml (buff : String) : Response :=
  { statusCode := statusOK, configVersionHeader := none, location := none,
    contentType := some "text/vnd.yaml", body := some buff, errMessage := none }

/-- `readObjectSpec`: parse the request body via `supervisor.NewSpec`
(external, passed as `newSpec`), then reject when a non-empty path name
disagrees with the parsed spec's name. -/
def readObjectSpec (newSpec : String → Except String Spec)
    (body : String) (pathName : String) : Except String Spec :=
  match newSpec body with
  | .error e => .error e
  | .ok spec =>
    if pathName ≠ "" ∧ pathName ≠ spec.name then
      .error "inconsistent name in url and spec "
    else
      .ok spec

/-- `upgradeConfigVersion`: bump the version via `_plusOneVersion` and set
the config-version response header to the new value. -/
def Server.upgradeConfigVersion (s : Server) (r : Response) : Server × Response :=
  let p := s.«_plusOneVersion»
  (p.1, { r with configVersionHeader := some p.2 })

/-- `createObject` handler. `pathName` is the `name` URL parameter (empty
for the POST route), `ctxPath` is `ctx.Path()`. -/
def Server.createObject (newSpec : String → Except String Spec) (s : Server)
    (body : String) (pathName : String) (ctxPath : String) : Server × Response :=
  match readObjectSpec newSpec body pathName with
  | .error e => (s, handleAPIError statusBadRequest e)
  | .ok spec =>
    match s.«_getObject» spec.name with
    | some _ => (s, handleAPIError statusConflict ("conflict name: " ++ spec.name))
    | none =>
      let sr := (s.«_putObject» spec).upgradeConfigVersion emptyResponse
      (sr.1, { sr.2 with
                statusCode := statusCreated,
                location := some (ctxPath ++ "/" ++ spec.name) })

/-- `deleteObject` handler. -/
def Server.deleteObject (s : Server) (name : String) : Server × Response :=
  match s.«_getObject» name with
  | none => (s, handleAPIError statusNotFound "not found")
  | some _ => (s.«_deleteObject» name).upgradeConfigVersion emptyResponse

/-- `getObject` handler (lock-free read). -/
def Server.getObject (s : Server) (name : String) : Response :=
  match s.«_getObject» name with
  | none => handleAPIError statusNotFound "not found"
  | some spec => okYaml spec.yamlConfig

/-- `updateObject` handler. -/
def Server.updateObject (newSpec : String → Except String Spec) (s : Server)
    (body : String) (pathName : String) : Server × Response :=
  match readObjectSpec newSpec body pathName with
  | .error e => (s, handleAPIError statusBadRequest e)
  | .ok spec =>
    match s.«_getObject» spec.name with
    | none => (s, handleAPIError statusNotFound "not found")
    | some existedSpec =>
      if existedSpec.kind ≠ spec.kind then
        (s, handleAPIError statusBadRequest
          ("different kinds: " ++ existedSpec.kind ++ ", " ++ spec.kind))
      else
        (s.«_putObject» spec).upgradeConfigVersion emptyResponse

/-- Boolean lexicographic order on char lists: the embedding of Go's `<`
on strings (`specList.Less` compares `Name()` strings). -/
def charListLe : List Char → List Char → Bool
  | [], _ => true
  | _ :: _, [] => false
  | a :: as, b :: bs =>
    if a < b then true
    else if b < a then false
    else charListLe as bs

/-- The order `sort.Sort(specs)` establishes via `specList.Less`:
ascending by object name. -/
def specLe (a b : Spec) : Prop := charListLe a.name.data b.name.data = true

instance : DecidableRel specLe := fun a b =>
  inferInstanceAs (Decidable (charListLe a.name.data b.name.data = true))

/-- The sorted spec list `listObjects` builds: `specList(s._listObjects())`
followed by `sort.Sort` with `specList.Less`. -/
def Server.sortedSpecs (s : Server) : List Spec :=
  List.insertionSort specLe s.«_listObjects»

/-- Outcome of a handler that may panic: either a written response or an
abrupt abort (`panic(err)`). -/
inductive HandlerOutcome where
  | response (r : Response)
  | panicked (msg : String)
deriving Repr, DecidableEq

/-- `specList.Marshal`: unmarshal each spec's canonical YAML into a generic
map (external codec `unmarshalY`), then marshal the batch (`marshalY`);
either step failing fails the whole marshal. -/
def specListMarshal {Y : Type} (unmarshalY : String → Except String Y)
    (marshalY : List Y → Except String String) :
    List Spec → Except String String
  | specs =>
    match specs.mapM (fun spec =>
      (match unmarshalY spec.yamlConfig with
       | .error e => .error ("unmarshal " ++ spec.yamlConfig ++ " to yaml failed: " ++ e)
       | .ok m => .ok m : Except String Y)) with
    | .error e => .error e
    | .ok ms =>
      match marshalY ms with
      | .error e => .error ("marshal to yaml failed: " ++ e)
      | .ok buff => .ok buff

/-- `listObjects` handler: sort, marshal the batch, panic on marshal
failure, otherwise write the YAML body. -/
def Server.listObjects {Y : Type} (unmarshalY : String → Except String Y)
    (marshalY : List Y → Except String String) (s : Server) : HandlerOutcome :=
  match specListMarshal unmarshalY marshalY s.sortedSpecs with
  | .error e => .panicked e
  | .ok buff => .response (okYaml buff)

/-- `getStatusObject` handler. The registry existence check and the status
fetch are lock-free reads of shared state, so they may observe different
states: `s1` is the state the existence check reads, `s2` the state the
status fetch reads (`s1 = s2` when nothing intervenes). `marshalStatus` is
the external YAML codec for the opaque status value. -/
def Server.getStatusObject (marshalStatus : Option StatusValue → Except String String)
    (s1 s2 : Server) (name : String) : HandlerOutcome :=
  match s1.«_getObject» name with
  | none => .response (handleAPIError statusNotFound "not found")
  | some _ =>
    match marshalStatus (s2.«_getStatusObject» name) with
    | .error e => .panicked ("marshal status to yaml failed: " ++ e)
    | .ok buff => .response (okYaml buff)

/-- `listStatusObjects` handler: marshal the whole status-view snapshot,
panic on failure. -/
def Server.listStatusObjects
    (marshalStatuses : List (String × StatusValue) → Except String String)
    (s : Server) : HandlerOutcome :=
  match marshalStatuses s.«_listStatusObjects» with
  | .error e => .panicked ("marshal statuses to yaml failed: " ++ e)
  | .ok buff => .response (okYaml buff)

/-- One mutating API request, as dispatched by `setupObjectAPIs`. -/
inductive Request where
  | createReq (body : String) (pathName : String) (ctxPath : String)
  | updateReq (body : String) (pathName : String)
  | deleteReq (name : String)
deriving Repr, DecidableEq

/-- Dispatch one mutating request to its handler. -/
def Server.handleRequest (newSpec : String → Except String Spec) (s : Server) :
    Request → Server × Response
  | .createReq body pathName ctxPath => s.createObject newSpec body pathName ctxPath
  | .updateReq body pathName => s.updateObject newSpec body pathName
  | .deleteReq name => s.deleteObject name

/-- Run a sequence of mutating requests, collecting the responses. -/
def Server.runRequests (newSpec : String → Except String Spec) (s : Server) :
    List Request → Server × List Response
  | [] => (s, [])
  | r :: rs =>
    let sr := s.handleRequest newSpec r
    let srs := sr.1.runRequests newSpec rs
    (srs.1, sr.2 :: srs.2)

/-- The configuration versions a caller observes in the response headers. -/
def versionHeaders (resps : List Response) : List Nat :=
  resps.filterMap (fun r => r.configVersionHeader)

/-- A concrete stand-in for `supervisor.NewSpec` used in witnesses: parses a
body into a Spec named by the body itself. -/
def constParse : String → Except String Spec :=
  fun b => Except.ok { name := b, kind := "Kind", yamlConfig := b }

theorem lookupSpec_eraseKey_self (l : List (String × Spec)) (n : String) :
    lookupSpec (eraseKey n l) n = none := by
  induction l with
  | nil => rfl
  | cons p ps ih =>
    by_cases h : p.1 = n
    · simpa [eraseKey, h] using ih
    · simp [eraseKey, h, lookupSpec, ih]

theorem lookupSpec_eraseKey_ne (l : List (String × Spec)) (n m : String) (h : m ≠ n) :
    lookupSpec (eraseKey n l) m = lookupSpec l m := by
  induction l with
  | nil => rfl
  | cons p ps ih =>
    have hnm : n ≠ m := fun e => h e.symm
    by_cases hp : p.1 = n
    · simp [eraseKey, hp, lookupSpec, hnm, ih]
    · by_cases hm : p.1 = m <;> simp [eraseKey, lookupSpec, hp, hm, h, ih]

theorem getObject_putObject_self (s : Server) (spec : Spec) :
    (s.«_putObject» spec).«_getObject» spec.name = some spec := by
  simp [Server.«_putObject», Server.«_getObject», lookupSpec]

theorem getObject_putObject_ne (s : Server) (spec : Spec) (n : String)
    (h : n ≠ spec.name) :
    (s.«_putObject» spec).«_getObject» n = s.«_getObject» n := by
  have h2 : spec.name ≠ n := fun e => h e.symm
  simp [Server.«_putObject», Server.«_getObject», lookupSpec, h2,
    lookupSpec_eraseKey_ne _ _ _ h]

theorem getObject_deleteObject_self (s : Server) (name : String) :
    (s.«_deleteObject» name).«_getObject» name = none := by
  simp [Server.«_deleteObject», Server.«_getObject», lookupSpec_eraseKey_self]

theorem getObject_deleteObject_ne (s : Server) (name m : String) (h : m ≠ name) :
    (s.«_deleteObject» name).«_getObject» m = s.«_getObject» m := by
  simp [Server.«_deleteObject», Server.«_getObject», lookupSpec_eraseKey_ne _ _ _ h]

theorem charListLe_total (x y : List Char) :
    charListLe x y = true ∨ charListLe y x = true := by
  induction x generalizing y with
  | nil => left; rfl
  | cons a as ih =>
    cases y with
    | nil => right; rfl
    | cons b bs =>
      by_cases hab : a < b
      · left; simp [charListLe, hab]
      · by_cases hba : b < a
        · right; simp [charListLe, hba]
        · rcases ih bs with h | h
          · left; simp [charListLe, hab, hba, h]
          · right; simp [charListLe, hab, hba, h]

theorem charListLe_trans (x : List Char) : ∀ y z : List Char,
    charListLe x y = true → charListLe y z = true → charListLe x z = true := by
  induction x with
  | nil => intro y z _ _; rfl
  | cons a as ih =>
    intro y z h1 h2
    cases y with
    | nil => simp [charListLe] at h1
    | cons b bs =>
      cases z with
      | nil => simp [charListLe] at h2
      | cons c cs =>
        by_cases hab : a < b
        · by_cases hbc : b < c
          · simp [charListLe, lt_trans hab hbc]
          · by_cases hcb : c < b
            · simp [charListLe, hbc, hcb] at h2
            · have hbceq : b = c := le_antisymm (le_of_not_lt hcb) (le_of_not_lt hbc)
              subst hbceq
              simp [charListLe, hab]
        · by_cases hba : b < a
          · simp [charListLe, hab, hba] at h1
          · have habeq : a = b := le_antisymm (le_of_not_lt hba) (le_of_not_lt hab)
            subst habeq
            simp only [charListLe, hab, hba, if_neg, if_false] at h1
            by_cases hac : a < c
            · simp [charListLe, hac]
            · by_cases hca : c < a
              · simp [charListLe, hac, hca] at h2
              · simp only [charListLe, hac, hca, if_neg, if_false] at h2 ⊢
                exact ih bs cs h1 h2

theorem readObjectSpec_ok (newSpec : String → Except String Spec)
    (body pathName : String) (spec : Spec)
    (h1 : newSpec body = .ok spec) (h2 : pathName = "" ∨ pathName = spec.name) :
    readObjectSpec newSpec body pathName = .ok spec := by
  rcases h2 with h2 | h2 <;> simp [readObjectSpec, h1, h2]

theorem readObjectSpec_mismatch (newSpec : String → Except String Spec)
    (body pathName : String) (spec : Spec)
    (h1 : newSpec body = .ok spec) (h2 : pathName ≠ "") (h3 : pathName ≠ spec.name) :
    readObjectSpec newSpec body pathName
      = .error "inconsistent name in url and spec " := by
  simp [readObjectSpec, h1, h2, h3]

theorem handleRequest_version_cases (newSpec : String → Except String Spec)
    (s : Server) (r : Request) :
    ((s.handleRequest newSpec r).2.configVersionHeader = some (s.configVersion + 1)
      ∧ (s.handleRequest newSpec r).1.configVersion = s.configVersion + 1)
    ∨ ((s.handleRequest newSpec r).2.configVersionHeader = none
      ∧ (s.handleRequest newSpec r).1 = s) := by
  cases r with
  | createReq body pathName ctxPath =>
    cases hr : readObjectSpec newSpec body pathName with
    | error e =>
      right
      simp [Server.handleRequest, Server.createObject, hr, handleAPIError]
    | ok spec =>
      cases hg : s.«_getObject» spec.name with
      | some sp =>
        right
        simp [Server.handleRequest, Server.createObject, hr, hg, handleAPIError]
      | none =>
        left
        simp [Server.handleRequest, Server.createObject, hr, hg,
          Server.upgradeConfigVersion, Server.«_plusOneVersion»,
          Server.«_putObject», emptyResponse]
  | updateReq body pathName =>
    cases hr : readObjectSpec newSpec body pathName with
    | error e =>
      right
      simp [Server.handleRequest, Server.updateObject, hr, handleAPIError]
    | ok spec =>
      cases hg : s.«_getObject» spec.name with
      | none =>
        right
        simp [Server.handleRequest, Server.updateObject, hr, hg, handleAPIError]
      | some existedSpec =>
        by_cases hk : existedSpec.kind ≠ spec.kind
        · right
          simp [Server.handleRequest, Server.updateObject, hr, hg, hk, handleAPIError]
        · left
          simp [Server.handleRequest, Server.updateObject, hr, hg, hk,
            Server.upgradeConfigVersion, Server.«_plusOneVersion»,
            Server.«_putObject», emptyResponse]
  | deleteReq name =>
    cases hg : s.«_getObject» name with
    | none =>
      right
      simp [Server.handleRequest, Server.deleteObject, hg, handleAPIError]
    | some sp =>
      left
      simp [Server.handleRequest, Server.deleteObject, hg,
        Server.upgradeConfigVersion, Server.«_plusOneVersion»,
        Server.«_deleteObject», emptyResponse]

theorem runRequests_version (newSpec : String → Except String Spec)
    (s : Server) (rs : List Request) :
    List.Chain' (· < ·)
      (s.configVersion :: versionHeaders (s.runRequests newSpec rs).2)
    ∧ (s.runRequests newSpec rs).1.configVersion
      = s.configVersion + (versionHeaders (s.runRequests newSpec rs).2).length := by
  induction rs generalizing s with
  | nil => simp [Server.runRequests, versionHeaders]
  | cons r rs ih =>
    obtain ⟨ihc, ihv⟩ := ih (s.handleRequest newSpec r).1
    rcases handleRequest_version_cases newSpec s r with ⟨h1, h2⟩ | ⟨h1, h2⟩
    · constructor
      · simp only [Server.runRequests, versionHeaders, List.filterMap_cons, h1]
        rw [List.chain'_cons]
        refine ⟨Nat.lt_succ_self _, ?_⟩
        rw [h2] at ihc
        simpa [versionHeaders] using ihc
      · simp only [Server.runRequests, versionHeaders, List.filterMap_cons, h1]
        simp only [versionHeaders] at ihv
        rw [ihv, h2]
        simp [List.length_cons]
        omega
    · constructor
      · simp only [Server.runRequests, versionHeaders, List.filterMap_cons, h1]
        rw [h2]
        rw [h2] at ihc
        simpa [versionHeaders] using ihc
      · simp only [Server.runRequests, versionHeaders, List.filterMap_cons, h1]
        rw [h2]
        rw [h2] at ihv
        simpa [versionHeaders] using ihv

/-- C1: for every sequence of mutating requests (create, update, delete),
the configuration versions returned in the response headers are strictly
increasing (even relative to the starting version); each accepted mutation
increments the stored version exactly once and reports the new value in the
header, and every failed request sets no version header and leaves the
server — in particular the version — unchanged. -/
theorem version_header_strictly_increasing
    (newSpec : String → Except String Spec) (s : Server) (rs : List Request) :
    List.Chain' (· < ·) (versionHeaders (s.runRequests newSpec rs).2)
    ∧ List.Chain' (· < ·)
        (s.configVersion :: versionHeaders (s.runRequests newSpec rs).2)
    ∧ (s.runRequests newSpec rs).1.configVersion
        = s.configVersion + (versionHeaders (s.runRequests newSpec rs).2).length
    ∧ ∀ r : Request,
        ((s.handleRequest newSpec r).2.configVersionHeader
            = some (s.configVersion + 1)
          ∧ (s.handleRequest newSpec r).1.configVersion = s.configVersion + 1)
        ∨ ((s.handleRequest newSpec r).2.configVersionHeader = none
          ∧ (s.handleRequest newSpec r).1 = s) := by
  obtain ⟨hc, hv⟩ := runRequests_version newSpec s rs
  exact ⟨hc.tail, hc, hv, fun r => handleRequest_version_cases newSpec s r⟩

/-- C2: `createObject` — when an entry already exists for the parsed spec's
name, the request fails with Conflict and the server (the stored Spec and
the version) is unchanged; when none exists, the spec is inserted, the
version is bumped exactly once, and the response is Created with a Location
header naming the new resource and the new version in the version header. -/
theorem createObject_contract (newSpec : String → Except String Spec)
    (s : Server) (body pathName ctxPath : String) (spec : Spec)
    (h1 : newSpec body = .ok spec)
    (h2 : pathName = "" ∨ pathName = spec.name) :
    match s.«_getObject» spec.name with
    | some _ =>
        s.createObject newSpec body pathName ctxPath
          = (s, handleAPIError statusConflict ("conflict name: " ++ spec.name))
    | none =>
        (s.createObject newSpec body pathName ctxPath).2.statusCode = statusCreated
        ∧ (s.createObject newSpec body pathName ctxPath).2.location
            = some (ctxPath ++ "/" ++ spec.name)
        ∧ (s.createObject newSpec body pathName ctxPath).2.configVersionHeader
            = some (s.configVersion + 1)
        ∧ (s.createObject newSpec body pathName ctxPath).1.configVersion
            = s.configVersion + 1
        ∧ (s.createObject newSpec body pathName ctxPath).1.«_getObject» spec.name
            = some spec
        ∧ ∀ n, n ≠ spec.name →
            (s.createObject newSpec body pathName ctxPath).1.«_getObject» n
              = s.«_getObject» n := by
  have hr := readObjectSpec_ok newSpec body pathName spec h1 h2
  cases hg : s.«_getObject» spec.name with
  | some sp => simp [Server.createObject, hr, hg]
  | none =>
    have hcreate : s.createObject newSpec body pathName ctxPath
        = ({ s with
              objects := (spec.name, spec) :: eraseKey spec.name s.objects,
              configVersion := s.configVersion + 1 },
           { statusCode := statusCreated,
             configVersionHeader := some (s.configVersion + 1),
             location := some (ctxPath ++ "/" ++ spec.name),
             contentType := none, body := none, errMessage := none }) := by
      simp [Server.createObject, hr, hg, Server.upgradeConfigVersion,
        Server.«_plusOneVersion», Server.«_putObject», emptyResponse]
    refine ⟨?_, ?_, ?_, ?_, ?_, ?_⟩
    · rw [hcreate]
    · rw [hcreate]
    · rw [hcreate]
    · rw [hcreate]
    · rw [hcreate]
      simp [Server.«_getObject», lookupSpec]
    · intro n hn
      rw [hcreate]
      simp [Server.«_getObject», lookupSpec, Ne.symm hn,
        lookupSpec_eraseKey_ne _ _ _ hn]

/-- Witness for C2: a successful create on the empty registry returns
Created, the location of the new resource and version 1, and stores the
spec. -/
theorem createObject_contract_witness :
    ((Server.mk [] 0 []).createObject constParse "pipeline-demo" "" "/objects").2.statusCode
        = statusCreated
    ∧ ((Server.mk [] 0 []).createObject constParse "pipeline-demo" "" "/objects").2.location
        = some ("/objects" ++ "/" ++ "pipeline-demo")
    ∧ ((Server.mk [] 0 []).createObject constParse "pipeline-demo" "" "/objects").2.configVersionHeader
        = some (0 + 1)
    ∧ ((Server.mk [] 0 []).createObject constParse "pipeline-demo" "" "/objects").1.configVersion
        = 0 + 1
    ∧ ((Server.mk [] 0 []).createObject constParse "pipeline-demo" "" "/objects").1.«_getObject» "pipeline-demo"
        = some (Spec.mk "pipeline-demo" "Kind" "pipeline-demo") := by
  have h := createObject_contract constParse (Server.mk [] 0 [])
    "pipeline-demo" "" "/objects" (Spec.mk "pipeline-demo" "Kind" "pipeline-demo")
    rfl (Or.inl rfl)
  exact ⟨h.1, h.2.1, h.2.2.1, h.2.2.2.1, h.2.2.2.2.1⟩

/-- C3: `updateObject` — a missing entry fails with NotFound before any kind
comparison is possible; an existing entry of a different kind fails with a
kind-mismatch BadRequest leaving the server unchanged; an entry of the same
kind is replaced with the new spec and the version bumped exactly once. -/
theorem updateObject_contract (newSpec : String → Except String Spec)
    (s : Server) (body pathName : String) (spec : Spec)
    (h1 : newSpec body = .ok spec)
    (h2 : pathName = "" ∨ pathName = spec.name) :
    match s.«_getObject» spec.name with
    | none =>
        s.updateObject newSpec body pathName
          = (s, handleAPIError statusNotFound "not found")
    | some existedSpec =>
        (existedSpec.kind ≠ spec.kind →
          s.updateObject newSpec body pathName
            = (s, handleAPIError statusBadRequest
                ("different kinds: " ++ existedSpec.kind ++ ", " ++ spec.kind)))
        ∧ (existedSpec.kind = spec.kind →
            (s.updateObject newSpec body pathName).2.statusCode = statusOK
            ∧ (s.updateObject newSpec body pathName).2.errMessage = none
            ∧ (s.updateObject newSpec body pathName).2.configVersionHeader
                = some (s.configVersion + 1)
            ∧ (s.updateObject newSpec body pathName).1.configVersion
                = s.configVersion + 1
            ∧ (s.updateObject newSpec body pathName).1.«_getObject» spec.name
                = some spec
            ∧ ∀ n, n ≠ spec.name →
                (s.updateObject newSpec body pathName).1.«_getObject» n
                  = s.«_getObject» n) := by
  have hr := readObjectSpec_ok newSpec body pathName spec h1 h2
  cases hg : s.«_getObject» spec.name with
  | none => simp [Server.updateObject, hr, hg]
  | some existedSpec =>
    constructor
    · intro hk
      simp [Server.updateObject, hr, hg, hk]
    · intro hk
      have hupd : s.updateObject newSpec body pathName
          = ({ s with
                objects := (spec.name, spec) :: eraseKey spec.name s.objects,
                configVersion := s.configVersion + 1 },
             { statusCode := statusOK,
               configVersionHeader := some (s.configVersion + 1),
               location := none, contentType := none, body := none,
               errMessage := none }) := by
        simp [Server.updateObject, hr, hg, hk, Server.upgradeConfigVersion,
          Server.«_plusOneVersion», Server.«_putObject», emptyResponse]
      refine ⟨?_, ?_, ?_, ?_, ?_, ?_⟩
      · rw [hupd]
      · rw [hupd]
      · rw [hupd]
      · rw [hupd]
      · rw [hupd]
        simp [Server.«_getObject», lookupSpec]
      · intro n hn
        rw [hupd]
        simp [Server.«_getObject», lookupSpec, Ne.symm hn,
          lookupSpec_eraseKey_ne _ _ _ hn]

/-- Witness for C3: an update that submits kind K2 for an object stored
with kind K1 fails with the kind-mismatch BadRequest and leaves the server
unchanged. -/
theorem updateObject_contract_witness :
    (Server.mk [("x", Spec.mk "x" "K1" "c1")] 7 []).updateObject
        (fun _ => Except.ok (Spec.mk "x" "K2" "c2")) "body" ""
      = (Server.mk [("x", Spec.mk "x" "K1" "c1")] 7 [],
         handleAPIError statusBadRequest
           ("different kinds: " ++ "K1" ++ ", " ++ "K2")) := by
  have h := updateObject_contract (fun _ => Except.ok (Spec.mk "x" "K2" "c2"))
    (Server.mk [("x", Spec.mk "x" "K1" "c1")] 7 []) "body" ""
    (Spec.mk "x" "K2" "c2") rfl (Or.inl rfl)
  exact h.1 (by decide)

/-- C4: `deleteObject` — deleting an existing name removes its entry (a
subsequent get of that name returns NotFound) and bumps the version once;
deleting an absent name fails with NotFound and leaves the server — mapping
and version — unchanged. -/
theorem deleteObject_contract (s : Server) (name : String) :
    match s.«_getObject» name with
    | none =>
        s.deleteObject name = (s, handleAPIError statusNotFound "not found")
    | some _ =>
        (s.deleteObject name).1.«_getObject» name = none
        ∧ (s.deleteObject name).1.getObject name
            = handleAPIError statusNotFound "not found"
        ∧ (s.deleteObject name).2.statusCode = statusOK
        ∧ (s.deleteObject name).2.configVersionHeader = some (s.configVersion + 1)
        ∧ (s.deleteObject name).1.configVersion = s.configVersion + 1
        ∧ ∀ m, m ≠ name →
            (s.deleteObject name).1.«_getObject» m = s.«_getObject» m := by
  cases hg : s.«_getObject» name with
  | none => simp [Server.deleteObject, hg]
  | some sp =>
    have hdel : s.deleteObject name
        = ({ s with
              objects := eraseKey name s.objects,
              configVersion := s.configVersion + 1 },
           { statusCode := statusOK,
             configVersionHeader := some (s.configVersion + 1),
             location := none, contentType := none, body := none,
             errMessage := none }) := by
      simp [Server.deleteObject, hg, Server.upgradeConfigVersion,
        Server.«_plusOneVersion», Server.«_deleteObject», emptyResponse]
    have habsent : (s.deleteObject name).1.«_getObject» name = none := by
      rw [hdel]
      simpa [Server.«_getObject»] using lookupSpec_eraseKey_self s.objects name
    refine ⟨habsent, ?_, ?_, ?_, ?_, ?_⟩
    · simp [Server.getObject, habsent]
    · rw [hdel]
    · rw [hdel]
    · rw [hdel]
    · intro m hm
      rw [hdel]
      simpa [Server.«_getObject»] using lookupSpec_eraseKey_ne s.objects name m hm

/-- Witness for C4: deleting the stored object "x" removes it, a get of "x"
then returns NotFound, the version is bumped from 5 to 6, and the other
stored object "y" is untouched; the last conjunct is exercised at "y". -/
theorem deleteObject_contract_witness :
    ((Server.mk [("x", Spec.mk "x" "K" "cx"), ("y", Spec.mk "y" "K" "cy")] 5 []).deleteObject "x").1.«_getObject» "x"
        = none
    ∧ ((Server.mk [("x", Spec.mk "x" "K" "cx"), ("y", Spec.mk "y" "K" "cy")] 5 []).deleteObject "x").1.getObject "x"
        = handleAPIError statusNotFound "not found"
    ∧ ((Server.mk [("x", Spec.mk "x" "K" "cx"), ("y", Spec.mk "y" "K" "cy")] 5 []).deleteObject "x").2.configVersionHeader
        = some (5 + 1)
    ∧ ((Server.mk [("x", Spec.mk "x" "K" "cx"), ("y", Spec.mk "y" "K" "cy")] 5 []).deleteObject "x").1.«_getObject» "y"
        = (Server.mk [("x", Spec.mk "x" "K" "cx"), ("y", Spec.mk "y" "K" "cy")] 5 []).«_getObject» "y" := by
  have h := deleteObject_contract
    (Server.mk [("x", Spec.mk "x" "K" "cx"), ("y", Spec.mk "y" "K" "cy")] 5 []) "x"
  exact ⟨h.1, h.2.1, h.2.2.2.1, h.2.2.2.2.2 "y" (by decide)⟩

/-- C5: for create and update, a non-empty path name that differs from the
parsed spec's name fails with BadRequest carrying the name-mismatch error,
and the server — registry mapping and version — is unchanged. -/
theorem nameMismatch_contract (newSpec : String → Except String Spec)
    (s : Server) (body pathName ctxPath : String) (spec : Spec)
    (h1 : newSpec body = .ok spec)
    (h2 : pathName ≠ "") (h3 : pathName ≠ spec.name) :
    s.createObject newSpec body pathName ctxPath
      = (s, handleAPIError statusBadRequest "inconsistent name in url and spec ")
    ∧ s.updateObject newSpec body pathName
      = (s, handleAPIError statusBadRequest "inconsistent name in url and spec ") := by
  have hr := readObjectSpec_mismatch newSpec body pathName spec h1 h2 h3
  constructor
  · simp [Server.createObject, hr]
  · simp [Server.updateObject, hr]

/-- Witness for C5: creating or updating with path name "y" while the spec
parses to name "x" is rejected with the name-mismatch BadRequest and the
server is unchanged. -/
theorem nameMismatch_contract_witness :
    (Server.mk [] 3 []).createObject constParse "x" "y" "/objects"
      = (Server.mk [] 3 [],
         handleAPIError statusBadRequest "inconsistent name in url and spec ")
    ∧ (Server.mk [] 3 []).updateObject constParse "x" "y"
      = (Server.mk [] 3 [],
         handleAPIError statusBadRequest "inconsistent name in url and spec ") :=
  nameMismatch_contract constParse (Server.mk [] 3 []) "x" "y" "/objects"
    (Spec.mk "x" "Kind" "x") rfl (by decide) (by decide)

/-- C6: the `listObjects` handler presents the stored Specs sorted by name
in ascending order for every registry contents — the sorted list is a
permutation of the registry values and the handler marshals exactly that
sorted list — and concretely, inserting names c, a, b in that order and
listing yields names a, b, c. -/
theorem listObjects_sorted_contract (s : Server) :
    List.Sorted specLe s.sortedSpecs
    ∧ s.sortedSpecs.Perm s.«_listObjects»
    ∧ (∀ (Y : Type) (unY : String → Except String Y)
         (mY : List Y → Except String String),
        Server.listObjects unY mY s
          = match specListMarshal unY mY s.sortedSpecs with
            | .error e => .panicked e
            | .ok buff => .response (okYaml buff))
    ∧ ((((Server.mk [] 0 []).createObject constParse "c" "" "/objects").1.createObject
            constParse "a" "" "/objects").1.createObject
            constParse "b" "" "/objects").1.sortedSpecs.map Spec.name
        = ["a", "b", "c"] := by
  refine ⟨?_, ?_, ?_, ?_⟩
  · exact @List.sorted_insertionSort Spec specLe _
      ⟨fun a b => charListLe_total a.name.data b.name.data⟩
      ⟨fun a b c hab hbc =>
        charListLe_trans a.name.data b.name.data c.name.data hab hbc⟩
      s.«_listObjects»
  · exact List.perm_insertionSort specLe s.«_listObjects»
  · intro Y unY mY
    rfl
  · decide

/-- C7: `getObject` returns NotFound exactly when the name is absent from
the registry; when present it returns the stored Spec's canonical
serialized form, so a get immediately after a successful create returns a
serialization that (for a parser that round-trips the canonical form)
parses back to a Spec with the same name, kind and content. -/
theorem getObject_roundtrip_contract (s : Server) (name : String) :
    (s.getObject name = handleAPIError statusNotFound "not found"
      ↔ s.«_getObject» name = none)
    ∧ (∀ spec, s.«_getObject» name = some spec
        → s.getObject name = okYaml spec.yamlConfig)
    ∧ (∀ (newSpec : String → Except String Spec) (body ctxPath : String)
         (spec : Spec),
        newSpec body = .ok spec →
        s.«_getObject» spec.name = none →
        newSpec spec.yamlConfig = .ok spec →
        ((s.createObject newSpec body "" ctxPath).1.getObject spec.name).body
            = some spec.yamlConfig
        ∧ ∃ spec2 : Spec,
            newSpec (((s.createObject newSpec body "" ctxPath).1.getObject
                spec.name).body.getD "")
              = .ok spec2
            ∧ spec2.name = spec.name ∧ spec2.kind = spec.kind
            ∧ spec2.yamlConfig = spec.yamlConfig) := by
  refine ⟨?_, ?_, ?_⟩
  · cases hg : s.«_getObject» name with
    | none => simp [Server.getObject, hg]
    | some sp =>
      simp [Server.getObject, hg, okYaml, handleAPIError, statusOK,
        statusNotFound]
  · intro spec hg
    simp [Server.getObject, hg]
  · intro newSpec body ctxPath spec h1 hg h3
    have hr := readObjectSpec_ok newSpec body "" spec h1 (Or.inl rfl)
    have hc : s.createObject newSpec body "" ctxPath
        = ({ s with
              objects := (spec.name, spec) :: eraseKey spec.name s.objects,
              configVersion := s.configVersion + 1 },
           { statusCode := statusCreated,
             configVersionHeader := some (s.configVersion + 1),
             location := some (ctxPath ++ "/" ++ spec.name),
             contentType := none, body := none, errMessage := none }) := by
      simp [Server.createObject, hr, hg, Server.upgradeConfigVersion,
        Server.«_plusOneVersion», Server.«_putObject», emptyResponse]
    have hstored : (s.createObject newSpec body "" ctxPath).1.«_getObject» spec.name
        = some spec := by
      rw [hc]
      simp [Server.«_getObject», lookupSpec]
    have hbody : ((s.createObject newSpec body "" ctxPath).1.getObject
        spec.name).body = some spec.yamlConfig := by
      simp [Server.getObject, hstored, okYaml]
    refine ⟨hbody, spec, ?_, rfl, rfl, rfl⟩
    rw [hbody]
    simpa using h3

/-- Witness for C7: with a parser that maps "cfg" to the spec
(svc1, Pipeline, "cfg"), a get right after the create returns the canonical
form "cfg", which parses back to the identical spec. -/
theorem getObject_roundtrip_contract_witness :
    (((Server.mk [] 0 []).createObject
        (fun b => if b = "cfg" then Except.ok (Spec.mk "svc1" "Pipeline" "cfg")
                  else Except.error "parse failed") "cfg" "" "/objects").1.getObject
        "svc1").body = some "cfg"
    ∧ ∃ spec2 : Spec,
        (fun b => if b = "cfg" then Except.ok (Spec.mk "svc1" "Pipeline" "cfg")
                  else Except.error "parse failed")
          ((((Server.mk [] 0 []).createObject
              (fun b => if b = "cfg" then Except.ok (Spec.mk "svc1" "Pipeline" "cfg")
                        else Except.error "parse failed") "cfg" "" "/objects").1.getObject
              "svc1").body.getD "")
          = .ok spec2
        ∧ spec2.name = "svc1" ∧ spec2.kind = "Pipeline"
        ∧ spec2.yamlConfig = "cfg" := by
  have h := (getObject_roundtrip_contract (Server.mk [] 0 []) "svc1").2.2
    (fun b => if b = "cfg" then Except.ok (Spec.mk "svc1" "Pipeline" "cfg")
              else Except.error "parse failed")
    "cfg" "/objects" (Spec.mk "svc1" "Pipeline" "cfg") rfl rfl rfl
  exact h

/-- C8: `getStatusObject` returns NotFound only from the registry-existence
pre-check read at state `s1`; once that check passes, the status is fetched
from the (possibly later) state `s2` without re-checking existence, so a
name deleted between the two reads still yields the last-observed status
rather than NotFound. -/
theorem getStatusObject_contract
    (marshalStatus : Option StatusValue → Except String String)
    (s1 s2 : Server) (name : String) :
    (s1.«_getObject» name = none →
      Server.getStatusObject marshalStatus s1 s2 name
        = .response (handleAPIError statusNotFound "not found"))
    ∧ (s1.«_getObject» name ≠ none →
      Server.getStatusObject marshalStatus s1 s2 name
        = match marshalStatus (s2.«_getStatusObject» name) with
          | .error e => .panicked ("marshal status to yaml failed: " ++ e)
          | .ok buff => .response (okYaml buff))
    ∧ (s1.«_getObject» name ≠ none →
      Server.getStatusObject marshalStatus s1 ((s1.deleteObject name).1) name
        ≠ .response (handleAPIError statusNotFound "not found")) := by
  refine ⟨?_, ?_, ?_⟩
  · intro h
    simp [Server.getStatusObject, h]
  · intro h
    cases hg : s1.«_getObject» name with
    | none => exact absurd hg h
    | some sp => simp [Server.getStatusObject, hg]
  · intro h
    cases hg : s1.«_getObject» name with
    | none => exact absurd hg h
    | some sp =>
      cases hm : marshalStatus (((s1.deleteObject name).1).«_getStatusObject» name) with
      | error e =>
        simp [Server.getStatusObject, hg, hm]
      | ok buff =>
        simp [Server.getStatusObject, hg, hm, okYaml, handleAPIError,
          statusOK, statusNotFound]

/-- Witness for C8: with object "x" stored and its status "running", a
status fetch whose status read happens after "x" was deleted still returns
the marshalled last-known status, not NotFound. -/
theorem getStatusObject_contract_witness :
    Server.getStatusObject (fun _ => Except.ok "status-yaml")
        (Server.mk [("x", Spec.mk "x" "K" "c")] 3 [("x", "running")])
        (((Server.mk [("x", Spec.mk "x" "K" "c")] 3 [("x", "running")]).deleteObject "x").1)
        "x"
      = .response (okYaml "status-yaml")
    ∧ Server.getStatusObject (fun _ => Except.ok "status-yaml")
        (Server.mk [("x", Spec.mk "x" "K" "c")] 3 [("x", "running")])
        (((Server.mk [("x", Spec.mk "x" "K" "c")] 3 [("x", "running")]).deleteObject "x").1)
        "x"
      ≠ .response (handleAPIError statusNotFound "not found") := by
  have h := getStatusObject_contract (fun _ => Except.ok "status-yaml")
    (Server.mk [("x", Spec.mk "x" "K" "c")] 3 [("x", "running")])
    (((Server.mk [("x", Spec.mk "x" "K" "c")] 3 [("x", "running")]).deleteObject "x").1)
    "x"
  exact ⟨h.2.1 (by decide), h.2.2 (by decide)⟩

/-- C9: for `listObjects` and `listStatusObjects`, a serialization failure
of the stored state aborts the request abruptly (the panicked outcome)
carrying the marshal error, and is never mapped to a client-facing error
response; when marshalling succeeds the handlers return a plain 200 YAML
response. -/
theorem serialization_failure_aborts (s : Server) :
    (∀ (Y : Type) (unY : String → Except String Y)
       (mY : List Y → Except String String),
      (∃ e, Server.listObjects unY mY s = .panicked e
          ∧ specListMarshal unY mY s.sortedSpecs = .error e)
      ∨ (∃ buff, Server.listObjects unY mY s = .response (okYaml buff)
          ∧ specListMarshal unY mY s.sortedSpecs = .ok buff))
    ∧ (∀ mS : List (String × StatusValue) → Except String String,
      (∃ e, s.listStatusObjects mS
            = .panicked ("marshal statuses to yaml failed: " ++ e)
          ∧ mS s.«_listStatusObjects» = .error e)
      ∨ (∃ buff, s.listStatusObjects mS = .response (okYaml buff)
          ∧ mS s.«_listStatusObjects» = .ok buff)) := by
  constructor
  · intro Y unY mY
    cases hm : specListMarshal unY mY s.sortedSpecs with
    | error e =>
      left
      exact ⟨e, by simp [Server.listObjects, hm], rfl⟩
    | ok buff =>
      right
      exact ⟨buff, by simp [Server.listObjects, hm], rfl⟩
  · intro mS
    cases hm : mS s.«_listStatusObjects» with
    | error e =>
      left
      exact ⟨e, by simp [Server.listStatusObjects, hm], rfl⟩
    | ok buff =>
      right
      exact ⟨buff, by simp [Server.listStatusObjects, hm], rfl⟩

/-- C10: `updateObject` performs no change detection — submitting a spec
identical to the stored one succeeds, still advances the configuration
version by one and reports the new version, while the observable mapping is
unchanged. -/
theorem updateObject_identical_bumps (newSpec : String → Except String Spec)
    (s : Server) (body pathName : String) (spec : Spec)
    (h0 : s.«_getObject» spec.name = some spec)
    (h1 : newSpec body = .ok spec)
    (h2 : pathName = "" ∨ pathName = spec.name) :
    (s.updateObject newSpec body pathName).2.statusCode = statusOK
    ∧ (s.updateObject newSpec body pathName).2.errMessage = none
    ∧ (s.updateObject newSpec body pathName).2.configVersionHeader
        = some (s.configVersion + 1)
    ∧ (s.updateObject newSpec body pathName).1.configVersion
        = s.configVersion + 1
    ∧ ∀ n, (s.updateObject newSpec body pathName).1.«_getObject» n
        = s.«_getObject» n := by
  have hr := readObjectSpec_ok newSpec body pathName spec h1 h2
  have hupd : s.updateObject newSpec body pathName
      = ({ s with
            objects := (spec.name, spec) :: eraseKey spec.name s.objects,
            configVersion := s.configVersion + 1 },
         { statusCode := statusOK,
           configVersionHeader := some (s.configVersion + 1),
           location := none, contentType := none, body := none,
           errMessage := none }) := by
    simp [Server.updateObject, hr, h0, Server.upgradeConfigVersion,
      Server.«_plusOneVersion», Server.«_putObject», emptyResponse]
  refine ⟨?_, ?_, ?_, ?_, ?_⟩
  · rw [hupd]
  · rw [hupd]
  · rw [hupd]
  · rw [hupd]
  · intro n
    by_cases hn : n = spec.name
    · subst hn
      rw [hupd, h0]
      simp [Server.«_getObject», lookupSpec]
    · rw [hupd]
      simp [Server.«_getObject», lookupSpec, Ne.symm hn,
        lookupSpec_eraseKey_ne _ _ _ hn]

/-- Witness for C10: updating "x" with the exact spec already stored
succeeds, bumps the version from 10 to 11, and leaves the mapping
observably unchanged (exercised at "x"). -/
theorem updateObject_identical_bumps_witness :
    ((Server.mk [("x", Spec.mk "x" "K" "c")] 10 []).updateObject
        (fun _ => Except.ok (Spec.mk "x" "K" "c")) "c" "").2.statusCode = statusOK
    ∧ ((Server.mk [("x", Spec.mk "x" "K" "c")] 10 []).updateObject
        (fun _ => Except.ok (Spec.mk "x" "K" "c")) "c" "").2.configVersionHeader
        = some (10 + 1)
    ∧ ((Server.mk [("x", Spec.mk "x" "K" "c")] 10 []).updateObject
        (fun _ => Except.ok (Spec.mk "x" "K" "c")) "c" "").1.configVersion
        = 10 + 1
    ∧ ((Server.mk [("x", Spec.mk "x" "K" "c")] 10 []).updateObject
        (fun _ => Except.ok (Spec.mk "x" "K" "c")) "c" "").1.«_getObject» "x"
        = (Server.mk [("x", Spec.mk "x" "K" "c")] 10 []).«_getObject» "x" := by
  have h := updateObject_identical_bumps
    (fun _ => Except.ok (Spec.mk "x" "K" "c"))
    (Server.mk [("x", Spec.mk "x" "K" "c")] 10 []) "c" ""
    (Spec.mk "x" "K" "c") rfl rfl (Or.inl rfl)
  exact ⟨h.1, h.2.2.1, h.2.2.2.1, h.2.2.2.2 "x"⟩

end EG
